import Mathlib

/-!
Graphics context negotiation on X11/GLX.

A shallow embedding of `src/Platform/Linux/OpenGLApplication.cpp`:

* `isExtensionSupported` (lines 16-41), with the C string routines it calls;
* `ctxErrorHandler` (lines 43-47);
* `OpenGLApplication::CreateMainWindow` (lines 55-229), as a function from the answers of
  the platform (`Platform`) to the outcome of the run (`Outcome`): the final program
  state, which carries the sequence of platform calls and printed lines (`Event`), or the
  point where the run reaches an operation that C leaves undefined.

A C string is represented by the list of its characters before the terminating NUL; a
pointer into it is an offset, and reading the terminator is reading past the last
element of the list (`none`).
-/

namespace GLX

/-! ## C string routines -/

/-- C `strchr(s, c)`: offset of the first `c` in `s`, `none` for a null result.  The
terminator itself is found when `c` is NUL. -/
def strchr : List Char → Char → Option Nat
  | [], c => if c = Char.ofNat 0 then some 0 else none
  | x :: xs, c => if x = c then some 0 else (strchr xs c).map (· + 1)

/-- C `strstr(hay, needle)`: offset of the first occurrence of `needle` in `hay`, `none`
for a null result. -/
def strstr : List Char → List Char → Option Nat
  | [], needle => if needle.isPrefixOf [] then some 0 else none
  | x :: xs, needle =>
    if needle.isPrefixOf (x :: xs) then some 0 else (strstr xs needle).map (· + 1)

/-- C `strlen`. -/
def strlen (s : List Char) : Nat := s.length

/-! ## `isExtensionSupported` -/

/-- The scanning loop `for (start = extList;;)` of `isExtensionSupported` (lines 27-38).
`start` is the offset of the pointer `start` in `extList`.  Every iteration that does not
leave the loop moves `start` forward, so the loop is run on a step budget; `none` is an
exhausted budget. -/
def scanLoop (extList extension : List Char) : Nat → Nat → Option Bool
  | 0, _ => none
  | fuel + 1, start =>
    match strstr (extList.drop start) extension with
    | none => some false
    | some off =>
      let wh := start + off
      let terminator := wh + strlen extension
      if (wh = start ∨ extList[wh - 1]? = some ' ') ∧
          (extList[terminator]? = some ' ' ∨ extList[terminator]? = none) then
        some true
      else scanLoop extList extension fuel terminator

/-- The function `isExtensionSupported(extList, extension)` (lines 16-41).  The loop gets
a budget of one step more than the length of `extList`, which `scanLoop_returns` shows to
be enough. -/
def isExtensionSupported (extList extension : List Char) : Option Bool :=
  if (strchr extension ' ').isSome ∨ extension = [] then some false
  else scanLoop extList extension (extList.length + 1) 0

/-- Name `N` stands in `L` at offset `i` as a whole token: it occurs there, it is at the
start of `L` or right after a space, and a space or the end of `L` follows it. -/
def TokenAt (L N : List Char) (i : Nat) : Prop :=
  N <+: L.drop i ∧ (i = 0 ∨ L[i - 1]? = some ' ') ∧
    (L[i + N.length]? = some ' ' ∨ i + N.length = L.length)

instance (L N : List Char) (i : Nat) : Decidable (TokenAt L N i) := by
  unfold TokenAt
  infer_instance

/-- Name `N` occurs in `L` as a whole token at some offset. -/
def IsToken (L N : List Char) : Prop := ∃ i, i < L.length + 1 ∧ TokenAt L N i

instance (L N : List Char) : Decidable (IsToken L N) := by
  unfold IsToken
  infer_instance

/-! ## Platform answers, events and program state -/

/-- Values of the Xlib error handler slot: the handler of this file, or a handler
installed by someone else (the default one included). -/
inductive Handler
  | ctxErrorHandler
  | other (id : Nat)
  deriving DecidableEq

/-- Lines the program prints. -/
inductive Msg
  /-- "Can't open display" -/
  | cantOpenDisplay
  /-- "glXGetFBConfigs failed" -/
  | glXGetFBConfigsFailed
  /-- "Matching fbconfig i, visual ID ..., SAMPLE_BUFFERS = b, SAMPLES = n" -/
  | matchingFbconfig (i : Nat) (samp_buf samples : Int)
  /-- "Chosen visual ID = ..." -/
  | chosenVisual
  /-- "glxCreateWindow failed" -/
  | glxCreateWindowFailed
  /-- "glXCreateContextAttribsARB() not found ... using old-style GLX context" -/
  | usingOldStyle
  /-- "glXCreateNewContext failed" -/
  | glXCreateNewContextFailed
  /-- "Creating context" -/
  | creatingContext
  /-- "Created GL 4.3 context" -/
  | createdGL43
  /-- "Failed to create an OpenGL context" -/
  | failedToCreateContext
  /-- "Indirect GLX rendering context obtained" -/
  | indirectContext
  /-- "Direct GLX rendering context obtained" -/
  | directContext
  /-- "glXMakeContextCurrent failed" -/
  | makeContextCurrentFailed
  deriving DecidableEq

/-- Platform calls and printed lines, in the order the program makes them.  A framebuffer
configuration is named by its index in the array `fb_configs`, a context by its handle
(0 is the null handle). -/
inductive Event
  | xOpenDisplay
  | print (m : Msg)
  | gladLoadGLX
  | glXChooseFBConfig
  | glXGetVisualFromFBConfig (fbc : Int)
  | glXGetFBConfigAttrib (fbc : Int)
  | xFree
  | xcbCreateMainWindow
  | xSetErrorHandler (h : Handler)
  | glXCreateWindow (fbc : Int)
  | glXQueryExtensionsString
  | glXCreateNewContext (fbc : Int)
  | glXCreateContextAttribsARB (fbc : Int) (major minor : Int) (debug : Bool)
  | xSync
  | glXIsDirect (ctx : Nat)
  | glXMakeContextCurrent (ctx : Nat)
  deriving DecidableEq

/-- What the platform reports for one enumerated framebuffer configuration: whether
`glXGetVisualFromFBConfig` resolves it (`vi` non-null), and its `GLX_SAMPLE_BUFFERS` and
`GLX_SAMPLES` attributes. -/
structure FBConfigInfo where
  vi : Bool
  samp_buf : Int
  samples : Int
  deriving DecidableEq

/-- The answers of the platform to the calls of `CreateMainWindow`. -/
structure Platform where
  /-- result of `XOpenDisplay`, 0 for null -/
  display : Nat
  /-- result of `glXChooseFBConfig`: `none` for a null array -/
  fb_configs : Option (List FBConfigInfo)
  /-- the error handler installed when `CreateMainWindow` is entered -/
  installedHandler : Handler
  /-- result of `glXCreateWindow`, 0 for null -/
  glxWindow : Nat
  /-- result of `glXQueryExtensionsString` -/
  glxExts : List Char
  /-- whether the entry point `glXCreateContextAttribsARB` was resolved (non-null) -/
  hasCreateContextAttribsARB : Bool
  /-- whether the build defines `OPENGL_RHI_DEBUG` -/
  rhiDebug : Bool
  /-- result of `glXCreateContextAttribsARB` for a requested major and minor version -/
  attribsContext : Int → Int → Nat
  /-- result of `glXCreateNewContext` -/
  newContext : Nat
  /-- whether an X error is delivered to the installed handler during each of the calls
  made while `ctxErrorHandler` is installed -/
  errCreateWindow : Bool
  errQueryExtensions : Bool
  errCreateAttribs : Bool
  errSyncAttribs : Bool
  errCreateNew : Bool
  errSyncFinal : Bool
  /-- result of `glXIsDirect` -/
  isDirect : Nat → Bool
  /-- result of `glXMakeContextCurrent` -/
  makeCurrent : Nat → Bool

/-- Program state of `CreateMainWindow`: the handler slot of Xlib, the static flag
`ctxErrorOccurred`, the members and locals the function assigns, and the events so far. -/
structure State where
  handler : Handler
  ctxErrorOccurred : Bool
  fb_config : Int
  m_GlxWindow : Nat
  m_Context : Nat
  /-- entries 1 and 3 of the local array `context_attribs`: requested major and minor -/
  context_attribs : Int × Int
  trace : List Event
  deriving DecidableEq

/-- Append an event to the trace. -/
def emit (e : Event) (s : State) : State := { s with trace := s.trace ++ [e] }

/-- Delivery of an X error (when `signalled`) to the handler in the slot.  The body of
`ctxErrorHandler` (lines 44-47) sets `ctxErrorOccurred`; other handlers do not touch it. -/
def deliver (signalled : Bool) (s : State) : State :=
  if signalled then
    match s.handler with
    | .ctxErrorHandler => { s with ctxErrorOccurred := true }
    | .other _ => s
  else s

/-! ## Framebuffer configuration selection (lines 86-125) -/

/-- Locals of the selection block, with the events so far. -/
structure SelState where
  best_fbc : Int
  worst_fbc : Int
  best_num_samp : Int
  worst_num_samp : Int
  trace : List Event

/-- One iteration of the loop of lines 99-121, for index `i` and configuration `c`. -/
def selStep (i : Nat) (c : FBConfigInfo) (s : SelState) : SelState :=
  let s : SelState := { s with trace := s.trace ++ [Event.glXGetVisualFromFBConfig i] }
  let s : SelState :=
    if c.vi then
      let s : SelState :=
        { s with trace := s.trace ++ [Event.glXGetFBConfigAttrib i, Event.glXGetFBConfigAttrib i,
            Event.print (Msg.matchingFbconfig i c.samp_buf c.samples)] }
      let s : SelState :=
        if s.best_fbc < 0 ∨ (c.samp_buf ≠ 0 ∧ c.samples > s.best_num_samp) then
          { s with best_fbc := i, best_num_samp := c.samples }
        else s
      if s.worst_fbc < 0 ∨ c.samp_buf = 0 ∨ c.samples < s.worst_num_samp then
        { s with worst_fbc := i, worst_num_samp := c.samples }
      else s
    else s
  { s with trace := s.trace ++ [Event.xFree] }

/-- The loop `for (int i = 0; i < num_fb_configs; ++i)`, from index `i` on. -/
def selLoop : List FBConfigInfo → Nat → SelState → SelState
  | [], _, s => s
  | c :: cs, i, s => selLoop cs (i + 1) (selStep i c s)

/-- The locals at the declaration of line 96. -/
def selInit (tr : List Event) : SelState :=
  { best_fbc := -1, worst_fbc := -1, best_num_samp := -1, worst_num_samp := 999, trace := tr }

/-- Lines 88-121: the enumeration, its diagnostic, and the selection loop.
`num_fb_configs` is the length of the array and 0 for a null array. -/
def selectFBConfig (p : Platform) (tr : List Event) : SelState :=
  let fbs := p.fb_configs.getD []
  let tr := tr ++ [.glXChooseFBConfig]
  let tr :=
    if p.fb_configs.isNone ∨ fbs.length = 0 then tr ++ [.print .glXGetFBConfigsFailed]
    else tr
  selLoop fbs 0 (selInit tr)

/-! ## Context creation (lines 148-229) -/

/-- The name tested at line 164. -/
def GLX_ARB_create_context : List Char := "GLX_ARB_create_context".toList

/-- Lines 149-162: reset the flag, install `ctxErrorHandler`, create the GLX window and
query the extension string. -/
def openScope (p : Platform) (s : State) : State :=
  let s := { s with ctxErrorOccurred := false }
  let s := emit (.xSetErrorHandler .ctxErrorHandler) { s with handler := .ctxErrorHandler }
  let s := deliver p.errCreateWindow
    (emit (.glXCreateWindow s.fb_config) { s with m_GlxWindow := p.glxWindow })
  let s := if s.m_GlxWindow = 0 then emit (.print .glxCreateWindowFailed) s else s
  deliver p.errQueryExtensions (emit .glXQueryExtensionsString s)

/-- The call `glXCreateNewContext(...)` with its check (lines 169-173 and 200-204). -/
def createNewContext (p : Platform) (s : State) : State :=
  let s := deliver p.errCreateNew
    (emit (.glXCreateNewContext s.fb_config) { s with m_Context := p.newContext })
  if s.m_Context = 0 then emit (.print .glXCreateNewContextFailed) s else s

/-- Lines 164-206: the capability test and the creation attempts.  The condition of line
164 holds unless `isExtensionSupported` returns true and the entry point is resolved. -/
def negotiate (p : Platform) (s : State) : State :=
  if isExtensionSupported p.glxExts GLX_ARB_create_context ≠ some true ∨
      p.hasCreateContextAttribsARB = false then
    createNewContext p (emit (.print .usingOldStyle) s)
  else
    let s := { s with context_attribs := (4, 3) }
    let s := emit (.print .creatingContext) s
    let s := deliver p.errCreateAttribs
      (emit (.glXCreateContextAttribsARB s.fb_config s.context_attribs.1 s.context_attribs.2
          p.rhiDebug)
        { s with m_Context := p.attribsContext s.context_attribs.1 s.context_attribs.2 })
    let s := deliver p.errSyncAttribs (emit .xSync s)
    if s.ctxErrorOccurred = false ∧ s.m_Context ≠ 0 then emit (.print .createdGL43) s
    else
      let s := { s with context_attribs := (1, 0) }
      let s := { s with ctxErrorOccurred := false }
      createNewContext p s

/-- Lines 208-214: synchronise, put back the handler that `XSetErrorHandler` returned at
line 151, and print the failure line. -/
def closeScope (p : Platform) (oldHandler : Handler) (s : State) : State :=
  let s := deliver p.errSyncFinal (emit .xSync s)
  let s := emit (.xSetErrorHandler oldHandler) { s with handler := oldHandler }
  if s.ctxErrorOccurred = true ∨ s.m_Context = 0 then emit (.print .failedToCreateContext) s
  else s

/-- Lines 216-228: the directness check and the bind. -/
def verifyAndBind (p : Platform) (s : State) : State :=
  let s := emit (.glXIsDirect s.m_Context) s
  let s :=
    if p.isDirect s.m_Context = false then emit (.print .indirectContext) s
    else emit (.print .directContext) s
  let s := emit (.glXMakeContextCurrent s.m_Context) s
  let s :=
    if p.makeCurrent s.m_Context = false then emit (.print .makeContextCurrentFailed) s else s
  emit .xFree s

/-- Lines 148-229, from the state `s` reached after window creation. -/
def createContext (p : Platform) (s : State) : State :=
  let oldHandler := s.handler
  verifyAndBind p (closeScope p oldHandler (negotiate p (openScope p s)))

/-- Operations of lines 56-131 that C leaves undefined. -/
inductive Undefined
  /-- line 62: `DefaultScreen(m_pDisplay)` reads through a null display pointer -/
  | nullDisplay
  /-- line 123: `fb_configs[best_fbc]` reads outside the array (or through a null array) -/
  | fbConfigsOutOfRange
  /-- line 129: `vi->visualid` reads through a null visual pointer -/
  | nullVisual
  deriving DecidableEq

/-- Outcome of a run: it reaches the end of the modelled lines in a state, or it reaches an
undefined operation after the events of `trace`, and nothing is said about what follows. -/
inductive Outcome
  | finished (s : State)
  | undefined (op : Undefined) (trace : List Event)
  deriving DecidableEq

/-- The read `fb_configs[i]` of line 123: `none` when the array is null or `i` is not an
index of it. -/
def fbConfigRead (fb_configs : Option (List FBConfigInfo)) (i : Int) : Option FBConfigInfo :=
  match fb_configs with
  | none => none
  | some cs => if i < 0 then none else cs[i.toNat]?

/-- Lines 56-131: open the display, load GLX, select the framebuffer configuration, get
its visual and create the window.  The configuration `fb_configs[best_fbc]` is named by
the index `best_fbc`.  The run is undefined from the first of these on: a null display
(line 62), a read of `fb_configs` outside the array (line 123), a null visual for the
chosen configuration (line 129). -/
def createWindow (p : Platform) : Outcome :=
  let tr : List Event := [Event.xOpenDisplay]
  if p.display = 0 then
    Outcome.undefined Undefined.nullDisplay (tr ++ [Event.print Msg.cantOpenDisplay])
  else
    let tr := tr ++ [Event.gladLoadGLX]
    let sel := selectFBConfig p tr
    match fbConfigRead p.fb_configs sel.best_fbc with
    | none => Outcome.undefined Undefined.fbConfigsOutOfRange sel.trace
    | some c =>
      let fb_config := sel.best_fbc
      let tr := sel.trace ++ [Event.glXGetVisualFromFBConfig fb_config]
      if c.vi = false then Outcome.undefined Undefined.nullVisual tr
      else
        Outcome.finished
          { handler := p.installedHandler, ctxErrorOccurred := false, fb_config := fb_config,
            m_GlxWindow := 0, m_Context := 0, context_attribs := (0, 0),
            trace := tr ++ [Event.print Msg.chosenVisual, Event.xcbCreateMainWindow] }

/-- The function `OpenGLApplication::CreateMainWindow` (lines 55-229).  It has no return
statement and raises nothing, so its statements run in program order, up to the first
undefined operation. -/
def CreateMainWindow (p : Platform) : Outcome :=
  match createWindow p with
  | Outcome.finished s => Outcome.finished (createContext p s)
  | Outcome.undefined u tr => Outcome.undefined u tr

/-- No X error is delivered during any call made while `ctxErrorHandler` is installed. -/
def NoErrorSignalled (p : Platform) : Prop :=
  p.errCreateWindow = false ∧ p.errQueryExtensions = false ∧ p.errCreateAttribs = false ∧
    p.errSyncAttribs = false ∧ p.errCreateNew = false ∧ p.errSyncFinal = false

instance (p : Platform) : Decidable (NoErrorSignalled p) := by
  unfold NoErrorSignalled
  infer_instance

/-- The calls of `glXCreateContextAttribsARB` in a trace. -/
def attribsCalls (tr : List Event) : List Event :=
  tr.filter fun e => match e with
    | .glXCreateContextAttribsARB _ _ _ _ => true
    | _ => false

/-- The calls of `glXCreateNewContext` in a trace. -/
def newContextCalls (tr : List Event) : List Event :=
  tr.filter fun e => match e with
    | .glXCreateNewContext _ => true
    | _ => false

/-- The handlers passed to `XSetErrorHandler` in a trace, in order. -/
def handlerCalls (tr : List Event) : List Handler :=
  tr.filterMap fun e => match e with
    | .xSetErrorHandler h => some h
    | _ => none

/-- A platform on which everything succeeds, with the given enumeration and extension
string. -/
def okPlatform (cs : Option (List FBConfigInfo)) (exts : List Char) : Platform :=
  { display := 1, fb_configs := cs, installedHandler := .other 0, glxWindow := 1,
    glxExts := exts, hasCreateContextAttribsARB := true, rhiDebug := false,
    attribsContext := fun _ _ => 1, newContext := 2,
    errCreateWindow := false, errQueryExtensions := false, errCreateAttribs := false,
    errSyncAttribs := false, errCreateNew := false, errSyncFinal := false,
    isDirect := fun _ => true, makeCurrent := fun c => decide (c ≠ 0) }


/-! ## Invariant of the selection loop -/

/-- What the loop has established after the configurations `cs` (not empty): the best
index `b` is the first configuration or one with the sample-buffer flag, `best_num_samp`
is its sample count, no configuration that is first or flagged has more samples, and
none before `b` has as many. -/
def BestInv (cs : List FBConfigInfo) (s : SelState) : Prop :=
  ∃ (b : Nat) (cb : FBConfigInfo), s.best_fbc = (b : Int) ∧ cs[b]? = some cb ∧
    s.best_num_samp = cb.samples ∧ (b = 0 ∨ cb.samp_buf ≠ 0) ∧
    ∀ (j : Nat) (cj : FBConfigInfo), cs[j]? = some cj → (j = 0 ∨ cj.samp_buf ≠ 0) →
      cj.samples ≤ cb.samples ∧ (j < b → cj.samples < cb.samples)

/-! ## Concrete inputs -/

/-- The candidates of the specification's selector example: the first has the
sample-buffer flag clear and 8 samples, the others have it set with 2 and 4 samples. -/
def specCandidates : List FBConfigInfo := [⟨true, 0, 8⟩, ⟨true, 1, 2⟩, ⟨true, 1, 4⟩]

/-- Flagged candidates with a tie for the highest sample count. -/
def tieCandidates : List FBConfigInfo := [⟨true, 1, 2⟩, ⟨true, 1, 4⟩, ⟨true, 1, 4⟩]

/-- A platform whose enumeration is an empty array. -/
def emptyEnumPlatform : Platform := okPlatform (some []) GLX_ARB_create_context

/-- A platform whose enumeration is a null array. -/
def nullEnumPlatform : Platform := okPlatform none GLX_ARB_create_context

/-- A state in which lines 148-229 can be entered: the default handler in the slot,
configuration 0 chosen, nothing created yet. -/
def entryState : State :=
  { handler := Handler.other 0, ctxErrorOccurred := false, fb_config := 0, m_GlxWindow := 0,
    m_Context := 0, context_attribs := (0, 0), trace := [] }

/-- A platform that advertises and resolves the modern entry point, which yields a null
handle for every version; `glXCreateNewContext` yields handle 2. -/
def modernFailsPlatform : Platform :=
  { okPlatform (some [⟨true, 1, 4⟩]) GLX_ARB_create_context with attribsContext := fun _ _ => 0 }

/-- A platform on which every creation call yields a null handle. -/
def nullContextPlatform : Platform :=
  { okPlatform (some [⟨true, 1, 4⟩]) GLX_ARB_create_context with
    attribsContext := fun _ _ => 0, newContext := 0 }

/-- A platform whose extension string is the single token made of the name
`GLX_ARB_create_context` written twice without a space. -/
def repeatedNamePlatform : Platform :=
  okPlatform (some [⟨true, 1, 4⟩]) (GLX_ARB_create_context ++ GLX_ARB_create_context)

/-- An extension list holding the name `GLX_ARB_foo` twice inside longer tokens and then
as a token of its own. -/
def rejectedFirstList : List Char := "GLX_ARB_foobar xGLX_ARB_foo GLX_ARB_foo".toList

/-- A name with a tab character in it. -/
def tabName : List Char := ['G', 'L', 'X', Char.ofNat 9, 'f', 'o', 'o']


/-! ## Facts about the C string routines -/

theorem strchr_isSome_of_mem (c : Char) : ∀ s : List Char, c ∈ s → (strchr s c).isSome = true
  | [], h => by simp at h
  | x :: xs, h => by
    unfold strchr
    by_cases hx : x = c
    · simp [hx]
    · have hmem : c ∈ xs := by
        rcases List.mem_cons.mp h with h1 | h1
        · exact absurd h1.symm hx
        · exact h1
      have ih := strchr_isSome_of_mem c xs hmem
      simp [hx, ih]

theorem strstr_some_occurs (n : List Char) :
    ∀ (h : List Char) (k : Nat), strstr h n = some k → n <+: h.drop k
  | [], k, hk => by
    unfold strstr at hk
    split at hk
    · rename_i hp
      simp at hk
      subst hk
      simpa using hp
    · simp at hk
  | x :: xs, k, hk => by
    unfold strstr at hk
    split at hk
    · rename_i hp
      simp at hk
      subst hk
      simpa using hp
    · cases hrec : strstr xs n with
      | none => simp [hrec] at hk
      | some j =>
        simp [hrec] at hk
        subst hk
        simpa using strstr_some_occurs n xs j hrec

theorem strstr_of_occurrence (n : List Char) :
    ∀ (h : List Char) (j : Nat), n <+: h.drop j → ∃ k, k ≤ j ∧ strstr h n = some k
  | [], j, hj => by
    refine ⟨0, Nat.zero_le _, ?_⟩
    unfold strstr
    simp at hj
    simp [hj]
  | x :: xs, j, hj => by
    unfold strstr
    by_cases hp : n.isPrefixOf (x :: xs) = true
    · exact ⟨0, Nat.zero_le _, by simp [hp]⟩
    · cases j with
      | zero =>
        exfalso
        apply hp
        simpa using hj
      | succ j =>
        obtain ⟨k, hk, hs⟩ := strstr_of_occurrence n xs j (by simpa using hj)
        exact ⟨k + 1, by omega, by simp [hp, hs]⟩

theorem occurrence_getElem? {N L : List Char} {w : Nat} (h : N <+: L.drop w) (k : Nat)
    (hk : k < N.length) : L[w + k]? = N[k]? := by
  obtain ⟨t, ht⟩ := h
  have h1 : (L.drop w)[k]? = L[w + k]? := List.getElem?_drop _ _ _
  rw [← h1, ← ht, List.getElem?_append_left hk]

theorem occurrence_length_le {N L : List Char} {w : Nat} (h : N <+: L.drop w) (hN : N ≠ []) :
    w + N.length ≤ L.length := by
  have h1 := h.length_le
  have h2 : 0 < N.length := List.length_pos.mpr hN
  rw [List.length_drop] at h1
  omega

/-! ## The scanning loop returns, and finds every whole token -/

/-- The budget of `isExtensionSupported` is enough: from any offset inside `L`, a budget
that covers the rest of `L` makes the loop return. -/
theorem scanLoop_returns (L N : List Char) (hN : N ≠ []) :
    ∀ (fuel start : Nat), start ≤ L.length → L.length + 1 ≤ fuel + start →
      ∃ b, scanLoop L N fuel start = some b := by
  have hNlen : 0 < N.length := List.length_pos.mpr hN
  intro fuel
  induction fuel with
  | zero =>
    intro start hs hf
    omega
  | succ fuel ih =>
    intro start hs hf
    unfold scanLoop
    cases hstr : strstr (L.drop start) N with
    | none => exact ⟨false, rfl⟩
    | some off =>
      simp only
      split
      · exact ⟨true, rfl⟩
      · have hocc := strstr_some_occurs N _ _ hstr
        rw [List.drop_drop] at hocc
        have hlen := occurrence_length_le hocc hN
        exact ih _ (by simpa [strlen] using hlen) (by simp only [strlen]; omega)

/-- The function `isExtensionSupported` returns on every input. -/
theorem isExtensionSupported_returns (L N : List Char) :
    ∃ b, isExtensionSupported L N = some b := by
  unfold isExtensionSupported
  split
  · exact ⟨false, rfl⟩
  · rename_i h
    have hN : N ≠ [] := fun hn => h (Or.inr hn)
    exact scanLoop_returns L N hN _ 0 (Nat.zero_le _) (by omega)

theorem scanLoop_whole_token (N pre post : List Char) (hN : N ≠ []) (hsp : ' ' ∉ N)
    (hpre : pre = [] ∨ pre.getLast? = some ' ')
    (hpost : post = [] ∨ post.head? = some ' ') :
    ∀ (fuel start : Nat), start ≤ pre.length →
      (pre ++ N ++ post).length + 1 ≤ fuel + start →
      scanLoop (pre ++ N ++ post) N fuel start = some true := by
  have hNlen : 0 < N.length := List.length_pos.mpr hN
  intro fuel
  induction fuel with
  | zero =>
    intro start hs hf
    simp at hf
    omega
  | succ fuel ih =>
    intro start hs hf
    have hocc : N <+: ((pre ++ N ++ post).drop start).drop (pre.length - start) := by
      rw [List.drop_drop]
      have hsum : start + (pre.length - start) = pre.length := by omega
      rw [hsum, List.append_assoc, List.drop_left]
      exact List.prefix_append _ _
    obtain ⟨off, hoff, hstr⟩ := strstr_of_occurrence N _ _ hocc
    have hwh : N <+: (pre ++ N ++ post).drop (start + off) := by
      have h0 := strstr_some_occurs N _ _ hstr
      rwa [List.drop_drop] at h0
    unfold scanLoop
    simp only [hstr, strlen]
    split
    · rfl
    · rename_i hcond
      have hle : start + off + N.length ≤ pre.length := by
        by_contra hcon
        have hcon : pre.length < start + off + N.length := by omega
        by_cases heq : start + off = pre.length
        · apply hcond
          constructor
          · rcases hpre with hp | hp
            · left
              subst hp
              simp at hs heq ⊢
              omega
            · right
              rw [heq, List.append_assoc, List.getElem?_append_left]
              · rw [← hp, List.getLast?_eq_getElem?]
              · cases pre with
                | nil => simp at hp
                | cons a t => simp
          · rw [heq]
            have h2 : (pre ++ N ++ post)[pre.length + N.length]? = post[0]? := by
              rw [List.getElem?_append_right (by simp)]
              simp
            rw [h2]
            rcases hpost with hp | hp
            · right
              simp [hp]
            · left
              rw [← hp]
              cases post <;> simp
        · have hlt : start + off < pre.length := by omega
          have hpne : pre ≠ [] := by
            intro h
            simp [h] at hlt
          have hlast : pre.getLast? = some ' ' := by
            rcases hpre with hp | hp
            · exact absurd hp hpne
            · exact hp
          have hplen : 0 < pre.length := List.length_pos.mpr hpne
          have h3 : (pre ++ N ++ post)[pre.length - 1]? = some ' ' := by
            rw [List.append_assoc, List.getElem?_append_left (by omega), ← hlast,
              List.getLast?_eq_getElem?]
          have h4 := occurrence_getElem? hwh (pre.length - 1 - (start + off)) (by omega)
          have h5 : start + off + (pre.length - 1 - (start + off)) = pre.length - 1 := by omega
          rw [h5, h3] at h4
          apply hsp
          exact List.mem_iff_getElem?.mpr ⟨_, h4.symm⟩
      exact ih _ hle (by omega)

/-- A name that stands in the list between token boundaries is reported as supported. -/
theorem isExtensionSupported_of_decomp (N pre post : List Char) (hN : N ≠ []) (hsp : ' ' ∉ N)
    (hpre : pre = [] ∨ pre.getLast? = some ' ')
    (hpost : post = [] ∨ post.head? = some ' ') :
    isExtensionSupported (pre ++ N ++ post) N = some true := by
  unfold isExtensionSupported
  have h1 : (strchr N ' ').isSome = false := by
    cases hs : (strchr N ' ').isSome with
    | false => rfl
    | true =>
      exfalso
      cases N with
      | nil => exact hN rfl
      | cons a t =>
        clear hpre hpost
        revert hs hsp
        generalize a :: t = M
        intro hsp hs
        induction M with
        | nil => simp [strchr] at hs
        | cons x xs ih =>
          unfold strchr at hs
          by_cases hx : x = ' '
          · exact hsp (by simp [hx])
          · simp [hx] at hs
            exact ih (fun hm => hsp (List.mem_cons_of_mem _ hm)) (by simpa using hs)
  simp only [h1, hN, or_self, Bool.false_eq_true, if_false]
  exact scanLoop_whole_token N pre post hN hsp hpre hpost _ 0 (Nat.zero_le _) (by omega)

/-- A whole-token occurrence splits the list around the name. -/
theorem tokenAt_decomp {L N : List Char} {i : Nat} (h : TokenAt L N i) (hi : i ≤ L.length) :
    ∃ pre post, L = pre ++ N ++ post ∧ (pre = [] ∨ pre.getLast? = some ' ') ∧
      (post = [] ∨ post.head? = some ' ') := by
  obtain ⟨⟨t, ht⟩, hb, ha⟩ := h
  have hL : L = L.take i ++ N ++ t := by
    rw [List.append_assoc, ht, List.take_append_drop]
  have hlen : (L.take i).length = i := by simp [hi]
  refine ⟨L.take i, t, hL, ?_, ?_⟩
  · rcases hb with hb | hb
    · left
      simp [hb]
    · by_cases h0 : i = 0
      · left
        simp [h0]
      · right
        rw [List.getLast?_eq_getElem?, hlen, List.getElem?_take_of_lt (by omega)]
        exact hb
  · have hidx : L[i + N.length]? = t[0]? := by
      conv_lhs => rw [hL]
      rw [List.getElem?_append_right (by simp [hlen])]
      simp [hlen]
    rcases ha with ha | ha
    · right
      rw [hidx] at ha
      cases t with
      | nil => simp at ha
      | cons x xs => simpa using ha
    · left
      have hl2 := congrArg List.length hL
      simp [hlen] at hl2
      have : t.length = 0 := by omega
      exact List.length_eq_zero.mp this

theorem isExtensionSupported_of_isToken (L N : List Char) (hN : N ≠ []) (hsp : ' ' ∉ N)
    (h : IsToken L N) : isExtensionSupported L N = some true := by
  obtain ⟨i, hi, ht⟩ := h
  obtain ⟨pre, post, hL, hpre, hpost⟩ := tokenAt_decomp ht (by omega)
  rw [hL]
  exact isExtensionSupported_of_decomp N pre post hN hsp hpre hpost

/-- Every element of a list of pieces stands between separators in their intercalation. -/
theorem mem_intercalate_decomp (sep : Char) (N : List Char) :
    ∀ ls : List (List Char), N ∈ ls →
      ∃ pre post, [sep].intercalate ls = pre ++ N ++ post ∧
        (pre = [] ∨ pre.getLast? = some sep) ∧ (post = [] ∨ post.head? = some sep)
  | [], h => by simp at h
  | [a], h => by
    have ha : N = a := by simpa using h
    subst ha
    exact ⟨[], [], by simp [List.intercalate], Or.inl rfl, Or.inl rfl⟩
  | a :: b :: rest, h => by
    have hcons : [sep].intercalate (a :: b :: rest) =
        a ++ sep :: [sep].intercalate (b :: rest) := by
      simp [List.intercalate, List.intersperse]
    rw [hcons]
    rcases List.mem_cons.mp h with h1 | h1
    · subst h1
      exact ⟨[], sep :: [sep].intercalate (b :: rest), by simp, Or.inl rfl, Or.inr rfl⟩
    · obtain ⟨pre, post, hd, hpre, hpost⟩ := mem_intercalate_decomp sep N (b :: rest) h1
      refine ⟨a ++ sep :: pre, post, by rw [hd]; simp, Or.inr ?_, hpost⟩
      rcases hpre with hp | hp
      · subst hp
        simp
      · rw [List.getLast?_append]
        cases pre with
        | nil => simp at hp
        | cons x xs =>
          rw [List.getLast?_cons_cons, hp]
          rfl


/-! ## The selection loop -/

theorem selStep_best_fbc (i : Nat) (c : FBConfigInfo) (s : SelState) :
    (selStep i c s).best_fbc =
      if c.vi = true ∧ (s.best_fbc < 0 ∨ (c.samp_buf ≠ 0 ∧ c.samples > s.best_num_samp))
      then (i : Int) else s.best_fbc := by
  unfold selStep
  by_cases hv : c.vi = true <;>
    by_cases hb : (s.best_fbc < 0 ∨ (c.samp_buf ≠ 0 ∧ c.samples > s.best_num_samp)) <;>
    simp only [hv, hb, if_true, if_false, true_and, false_and, Bool.false_eq_true] <;>
    split <;> rfl

theorem selStep_best_num_samp (i : Nat) (c : FBConfigInfo) (s : SelState) :
    (selStep i c s).best_num_samp =
      if c.vi = true ∧ (s.best_fbc < 0 ∨ (c.samp_buf ≠ 0 ∧ c.samples > s.best_num_samp))
      then c.samples else s.best_num_samp := by
  unfold selStep
  by_cases hv : c.vi = true <;>
    by_cases hb : (s.best_fbc < 0 ∨ (c.samp_buf ≠ 0 ∧ c.samples > s.best_num_samp)) <;>
    simp only [hv, hb, if_true, if_false, true_and, false_and, Bool.false_eq_true] <;>
    split <;> rfl

theorem bestInv_first (c : FBConfigInfo) (s : SelState) (hv : c.vi = true)
    (hs : s.best_fbc < 0) : BestInv [c] (selStep 0 c s) := by
  refine ⟨0, c, ?_, rfl, ?_, Or.inl rfl, ?_⟩
  · rw [selStep_best_fbc]
    simp [hv, hs]
  · rw [selStep_best_num_samp]
    simp [hv, hs]
  · intro j cj hj _
    cases j with
    | zero =>
      simp at hj
      subst hj
      exact ⟨le_refl _, fun h => absurd h (by omega)⟩
    | succ j => simp at hj

theorem bestInv_step (pre : List FBConfigInfo) (c : FBConfigInfo) (s : SelState)
    (hv : c.vi = true) (h : BestInv pre s) :
    BestInv (pre ++ [c]) (selStep pre.length c s) := by
  obtain ⟨b, cb, hb, hcb, hnum, hflag, hall⟩ := h
  have hblt : b < pre.length := by
    by_contra hcon
    rw [List.getElem?_eq_none (by omega)] at hcb
    exact Option.noConfusion hcb
  have hnonneg : ¬ s.best_fbc < 0 := by
    rw [hb]
    omega
  by_cases hnew : c.samp_buf ≠ 0 ∧ c.samples > s.best_num_samp
  · refine ⟨pre.length, c, ?_, by simp, ?_, Or.inr hnew.1, ?_⟩
    · rw [selStep_best_fbc]
      simp [hv, hnew]
    · rw [selStep_best_num_samp]
      simp [hv, hnew]
    · intro j cj hj hjf
      by_cases hjl : j < pre.length
      · rw [List.getElem?_append_left hjl] at hj
        have h1 := (hall j cj hj hjf).1
        rw [← hnum] at h1
        have h2 := hnew.2
        exact ⟨by omega, fun _ => by omega⟩
      · by_cases hje : j = pre.length
        · subst hje
          simp at hj
          subst hj
          exact ⟨le_refl _, fun h => absurd h (by omega)⟩
        · rw [List.getElem?_eq_none (by simp; omega)] at hj
          exact Option.noConfusion hj
  · refine ⟨b, cb, ?_, ?_, ?_, hflag, ?_⟩
    · rw [selStep_best_fbc]
      simp only [hv, hnonneg, hnew, or_self, and_false, if_false]
      exact hb
    · rw [List.getElem?_append_left hblt]
      exact hcb
    · rw [selStep_best_num_samp]
      simp only [hv, hnonneg, hnew, or_self, and_false, if_false]
      exact hnum
    · intro j cj hj hjf
      by_cases hjl : j < pre.length
      · rw [List.getElem?_append_left hjl] at hj
        exact hall j cj hj hjf
      · by_cases hje : j = pre.length
        · subst hje
          simp at hj
          subst hj
          rcases hjf with h0 | hf
          · omega
          · have h3 : ¬ c.samples > s.best_num_samp := fun h => hnew ⟨hf, h⟩
            rw [hnum] at h3
            exact ⟨by omega, fun h => absurd h (by omega)⟩
        · rw [List.getElem?_eq_none (by simp; omega)] at hj
          exact Option.noConfusion hj

theorem bestInv_loop : ∀ (suf pre : List FBConfigInfo) (s : SelState),
    (∀ c ∈ suf, c.vi = true) → BestInv pre s →
      BestInv (pre ++ suf) (selLoop suf pre.length s)
  | [], pre, s, _, h => by simpa [selLoop] using h
  | c :: suf, pre, s, hv, h => by
    have h1 := bestInv_step pre c s (hv c (List.mem_cons_self _ _)) h
    have h2 := bestInv_loop suf (pre ++ [c]) (selStep pre.length c s)
      (fun d hd => hv d (List.mem_cons_of_mem _ hd)) h1
    simpa [selLoop] using h2

/-- The invariant holds for the whole loop on a non-empty array of resolvable
configurations. -/
theorem bestInv_selLoop (cs : List FBConfigInfo) (tr : List Event) (hne : cs ≠ [])
    (hv : ∀ c ∈ cs, c.vi = true) : BestInv cs (selLoop cs 0 (selInit tr)) := by
  cases cs with
  | nil => exact absurd rfl hne
  | cons c rest =>
    have h1 := bestInv_first c (selInit tr) (hv c (List.mem_cons_self _ _))
      (by simp [selInit])
    have h2 := bestInv_loop rest [c] _ (fun d hd => hv d (List.mem_cons_of_mem _ hd)) h1
    simpa [selLoop] using h2


/-! ## Context creation: how each block changes the state -/

@[simp] theorem emit_trace (e : Event) (s : State) : (emit e s).trace = s.trace ++ [e] := rfl
@[simp] theorem emit_handler (e : Event) (s : State) : (emit e s).handler = s.handler := rfl
@[simp] theorem emit_ctxErrorOccurred (e : Event) (s : State) :
    (emit e s).ctxErrorOccurred = s.ctxErrorOccurred := rfl
@[simp] theorem emit_m_Context (e : Event) (s : State) : (emit e s).m_Context = s.m_Context := rfl
@[simp] theorem emit_fb_config (e : Event) (s : State) : (emit e s).fb_config = s.fb_config := rfl
@[simp] theorem emit_m_GlxWindow (e : Event) (s : State) :
    (emit e s).m_GlxWindow = s.m_GlxWindow := rfl

@[simp] theorem emit_context_attribs (e : Event) (s : State) :
    (emit e s).context_attribs = s.context_attribs := rfl

@[simp] theorem deliver_false (s : State) : deliver false s = s := rfl

@[simp] theorem deliver_trace (b : Bool) (s : State) : (deliver b s).trace = s.trace := by
  unfold deliver
  split
  · split <;> rfl
  · rfl

@[simp] theorem deliver_handler (b : Bool) (s : State) : (deliver b s).handler = s.handler := by
  unfold deliver
  split
  · split <;> rfl
  · rfl

@[simp] theorem deliver_m_Context (b : Bool) (s : State) :
    (deliver b s).m_Context = s.m_Context := by
  unfold deliver
  split
  · split <;> rfl
  · rfl

@[simp] theorem deliver_fb_config (b : Bool) (s : State) :
    (deliver b s).fb_config = s.fb_config := by
  unfold deliver
  split
  · split <;> rfl
  · rfl

@[simp] theorem deliver_m_GlxWindow (b : Bool) (s : State) :
    (deliver b s).m_GlxWindow = s.m_GlxWindow := by
  unfold deliver
  split
  · split <;> rfl
  · rfl

theorem handlerCalls_append (a b : List Event) :
    handlerCalls (a ++ b) = handlerCalls a ++ handlerCalls b := by
  simp [handlerCalls, List.filterMap_append]

theorem openScope_handlerCalls (p : Platform) (s : State) :
    handlerCalls (openScope p s).trace = handlerCalls s.trace ++ [Handler.ctxErrorHandler] := by
  unfold openScope
  simp only [deliver_trace, emit_trace, deliver_m_GlxWindow, emit_m_GlxWindow]
  split <;> simp [handlerCalls_append, handlerCalls]

theorem openScope_flag (p : Platform) (s : State) (h : NoErrorSignalled p) :
    (openScope p s).ctxErrorOccurred = false := by
  obtain ⟨h1, h2, -⟩ := h
  unfold openScope
  simp only [h1, h2, deliver_false, emit_ctxErrorOccurred]
  split <;> rfl

theorem createNewContext_handlerCalls (p : Platform) (s : State) :
    handlerCalls (createNewContext p s).trace = handlerCalls s.trace := by
  unfold createNewContext
  simp only [deliver_m_Context, emit_m_Context]
  split <;> simp [handlerCalls_append, handlerCalls]

theorem createNewContext_flag (p : Platform) (s : State) (h : NoErrorSignalled p) :
    (createNewContext p s).ctxErrorOccurred = s.ctxErrorOccurred := by
  obtain ⟨-, -, -, -, h5, -⟩ := h
  unfold createNewContext
  simp only [h5, deliver_false, emit_m_Context]
  split <;> rfl

theorem createNewContext_m_Context (p : Platform) (s : State) :
    (createNewContext p s).m_Context = p.newContext := by
  unfold createNewContext
  simp only [deliver_m_Context, emit_m_Context]
  split <;> simp

theorem negotiate_handlerCalls (p : Platform) (s : State) :
    handlerCalls (negotiate p s).trace = handlerCalls s.trace := by
  unfold negotiate
  split
  · rw [createNewContext_handlerCalls]
    simp [handlerCalls_append, handlerCalls]
  · simp only
    split
    · simp [handlerCalls_append, handlerCalls]
    · rw [createNewContext_handlerCalls]
      simp [handlerCalls_append, handlerCalls]

theorem negotiate_flag (p : Platform) (s : State) (h : NoErrorSignalled p)
    (hs : s.ctxErrorOccurred = false) : (negotiate p s).ctxErrorOccurred = false := by
  have h' := h
  obtain ⟨-, -, h3, h4, -, -⟩ := h'
  unfold negotiate
  split
  · rw [createNewContext_flag p _ h]
    simpa using hs
  · simp only [h3, h4, deliver_false]
    split
    · simpa using hs
    · rw [createNewContext_flag p _ h]

theorem negotiate_m_Context_null (p : Platform) (s : State) (hn : p.newContext = 0)
    (ha : p.attribsContext 4 3 = 0) : (negotiate p s).m_Context = 0 := by
  unfold negotiate
  split
  · rw [createNewContext_m_Context, hn]
  · simp only
    split
    · rename_i hc
      simp [ha] at hc
    · rw [createNewContext_m_Context, hn]

theorem closeScope_handler (p : Platform) (h : Handler) (s : State) :
    (closeScope p h s).handler = h := by
  unfold closeScope
  simp only
  split <;> rfl

theorem closeScope_handlerCalls (p : Platform) (h : Handler) (s : State) :
    handlerCalls (closeScope p h s).trace = handlerCalls s.trace ++ [h] := by
  unfold closeScope
  simp only
  split <;> simp [handlerCalls_append, handlerCalls]

theorem closeScope_flag (p : Platform) (h : Handler) (s : State) (hp : NoErrorSignalled p) :
    (closeScope p h s).ctxErrorOccurred = s.ctxErrorOccurred := by
  obtain ⟨-, -, -, -, -, h6⟩ := hp
  unfold closeScope
  simp only [h6, deliver_false]
  split <;> rfl

theorem closeScope_m_Context (p : Platform) (h : Handler) (s : State) :
    (closeScope p h s).m_Context = s.m_Context := by
  unfold closeScope
  simp only
  split <;> simp

theorem closeScope_trace_null (p : Platform) (h : Handler) (s : State) (hs : s.m_Context = 0) :
    (closeScope p h s).trace =
      s.trace ++ [Event.xSync, Event.xSetErrorHandler h,
        Event.print Msg.failedToCreateContext] := by
  unfold closeScope
  simp [hs]

theorem verifyAndBind_handler (p : Platform) (s : State) :
    (verifyAndBind p s).handler = s.handler := by
  unfold verifyAndBind
  simp only
  split <;> split <;> rfl

theorem verifyAndBind_trace (p : Platform) (s : State) :
    ∃ post, (verifyAndBind p s).trace = s.trace ++ [Event.glXIsDirect s.m_Context] ++ post ∧
      Event.glXMakeContextCurrent s.m_Context ∈ post := by
  unfold verifyAndBind
  simp only
  split <;> split <;> simp


theorem verifyAndBind_m_Context (p : Platform) (s : State) :
    (verifyAndBind p s).m_Context = s.m_Context := by
  unfold verifyAndBind
  simp only
  split <;> split <;> rfl

theorem verifyAndBind_flag (p : Platform) (s : State) :
    (verifyAndBind p s).ctxErrorOccurred = s.ctxErrorOccurred := by
  unfold verifyAndBind
  simp only
  split <;> split <;> rfl

/-- When the capability test of line 164 fails, `glXCreateContextAttribsARB` is not called and
`glXCreateNewContext` is called once. -/
theorem negotiate_legacy_branch (p : Platform) (s : State)
    (h : isExtensionSupported p.glxExts GLX_ARB_create_context ≠ some true ∨
      p.hasCreateContextAttribsARB = false) :
    attribsCalls (negotiate p s).trace = attribsCalls s.trace ∧
      newContextCalls (negotiate p s).trace =
        newContextCalls s.trace ++ [Event.glXCreateNewContext s.fb_config] := by
  unfold negotiate createNewContext
  simp only [h, if_true, deliver_m_Context, emit_m_Context]
  split <;> simp [attribsCalls, newContextCalls, List.filter_append]

/-- The only call of `glXCreateContextAttribsARB` that lines 164-206 can make is the one for
version 4.3, and it is made exactly when the capability test of line 164 passes. -/
theorem negotiate_attribsCalls (p : Platform) (s : State) :
    attribsCalls (negotiate p s).trace =
      attribsCalls s.trace ++
        (if isExtensionSupported p.glxExts GLX_ARB_create_context ≠ some true ∨
            p.hasCreateContextAttribsARB = false then []
          else [Event.glXCreateContextAttribsARB s.fb_config 4 3 p.rhiDebug]) := by
  by_cases h : isExtensionSupported p.glxExts GLX_ARB_create_context ≠ some true ∨
      p.hasCreateContextAttribsARB = false
  · rw [(negotiate_legacy_branch p s h).1]
    simp [h]
  · unfold negotiate createNewContext
    simp only [h, if_false, deliver_m_Context, emit_m_Context, deliver_trace, emit_trace]
    split
    · simp [attribsCalls, List.filter_append]
    · split <;> simp [attribsCalls, List.filter_append]

theorem createContext_handler (p : Platform) (s : State) :
    (createContext p s).handler = s.handler := by
  unfold createContext
  simp only
  rw [verifyAndBind_handler, closeScope_handler]

/-- A run of lines 56-131 that reaches their end leaves the handler slot as it found it. -/
theorem createWindow_handler (p : Platform) (w : State)
    (h : createWindow p = Outcome.finished w) : w.handler = p.installedHandler := by
  unfold createWindow at h
  simp only at h
  split at h
  · exact Outcome.noConfusion h
  · split at h
    · exact Outcome.noConfusion h
    · split at h
      · exact Outcome.noConfusion h
      · have hw := Outcome.finished.inj h
        rw [← hw]

/-! ## The claims -/

/-- C1 (the code departs from it): `isExtensionSupported` reports the name `GLX_ARB_foo`
as supported in the list `GLX_ARB_fooGLX_ARB_foo`, where it is not a whole token: the
second occurrence starts where the scan resumes, and line 34 compares `where` with
`start`, so it passes for the start of the list. -/
theorem isExtensionSupported_repeated_name :
    isExtensionSupported "GLX_ARB_fooGLX_ARB_foo".toList "GLX_ARB_foo".toList = some true ∧
      ¬ IsToken "GLX_ARB_fooGLX_ARB_foo".toList "GLX_ARB_foo".toList := by
  decide

/-- C2, as stated, fails on the specification's own example: the loop selects index 0 (the
candidate with the flag clear and 8 samples), not index 2. -/
theorem selLoop_spec_example_selects_first :
    (selLoop specCandidates 0 (selInit [])).best_fbc = 0 ∧
      (selLoop specCandidates 0 (selInit [])).best_fbc ≠ 2 := by
  decide

/-- C2, amended: for a non-empty array of resolvable candidates the loop selects the
earliest candidate with the highest sample count among the first candidate and the
candidates whose sample-buffer flag is set; it is the first candidate when no candidate
has the flag set. -/
theorem selLoop_best_first_or_flagged (cs : List FBConfigInfo) (tr : List Event)
    (hne : cs ≠ []) (hv : ∀ c ∈ cs, c.vi = true) :
    ∃ (b : Nat) (cb : FBConfigInfo),
      (selLoop cs 0 (selInit tr)).best_fbc = (b : Int) ∧ cs[b]? = some cb ∧
      (b = 0 ∨ cb.samp_buf ≠ 0) ∧
      (∀ (j : Nat) (cj : FBConfigInfo), cs[j]? = some cj → (j = 0 ∨ cj.samp_buf ≠ 0) →
        cj.samples ≤ cb.samples ∧ (j < b → cj.samples < cb.samples)) ∧
      ((∀ c ∈ cs, c.samp_buf = 0) → b = 0) := by
  obtain ⟨b, cb, hb, hcb, -, hflag, hall⟩ := bestInv_selLoop cs tr hne hv
  refine ⟨b, cb, hb, hcb, hflag, hall, ?_⟩
  intro hzero
  rcases hflag with h0 | hf
  · exact h0
  · exact absurd (hzero cb (List.mem_iff_getElem?.mpr ⟨b, hcb⟩)) hf

/-- C2, amended, on the specification's example. -/
theorem selLoop_best_first_or_flagged_witness :
    specCandidates ≠ [] ∧ (∀ c ∈ specCandidates, c.vi = true) ∧
    ∃ (b : Nat) (cb : FBConfigInfo),
      (selLoop specCandidates 0 (selInit [])).best_fbc = (b : Int) ∧
      specCandidates[b]? = some cb ∧ (b = 0 ∨ cb.samp_buf ≠ 0) ∧
      (∀ (j : Nat) (cj : FBConfigInfo), specCandidates[j]? = some cj →
        (j = 0 ∨ cj.samp_buf ≠ 0) →
        cj.samples ≤ cb.samples ∧ (j < b → cj.samples < cb.samples)) ∧
      ((∀ c ∈ specCandidates, c.samp_buf = 0) → b = 0) :=
  ⟨by decide, by decide,
    selLoop_best_first_or_flagged specCandidates [] (by decide) (by decide)⟩

/-- C3 (the code departs from it): when the enumeration is an empty or a null array, the
code prints the diagnostic "glXGetFBConfigs failed", the loop examines no candidate and
leaves `best_fbc` at -1, and the next thing the run does is the read `fb_configs[-1]` of
line 123, outside the array: the empty enumeration is detected and not handled. -/
theorem createMainWindow_empty_enumeration_undefined :
    (selectFBConfig emptyEnumPlatform [Event.xOpenDisplay, Event.gladLoadGLX]).best_fbc = -1 ∧
      CreateMainWindow emptyEnumPlatform =
        Outcome.undefined Undefined.fbConfigsOutOfRange
          [Event.xOpenDisplay, Event.gladLoadGLX, Event.glXChooseFBConfig,
            Event.print Msg.glXGetFBConfigsFailed] ∧
      (selectFBConfig nullEnumPlatform [Event.xOpenDisplay, Event.gladLoadGLX]).best_fbc = -1 ∧
      CreateMainWindow nullEnumPlatform =
        Outcome.undefined Undefined.fbConfigsOutOfRange
          [Event.xOpenDisplay, Event.gladLoadGLX, Event.glXChooseFBConfig,
            Event.print Msg.glXGetFBConfigsFailed] := by
  decide

/-- C4 (the code departs from it): when the attempt for version 4.3 yields a null handle,
the only call of `glXCreateContextAttribsARB` is the one for version 4.3; the array
`context_attribs` is set to version 1.0 and then `glXCreateNewContext` is called. -/
theorem createMainWindow_no_minimum_version_attempt :
    ∃ s, CreateMainWindow modernFailsPlatform = Outcome.finished s ∧
      attribsCalls s.trace = [Event.glXCreateContextAttribsARB 0 4 3 false] ∧
      newContextCalls s.trace = [Event.glXCreateNewContext 0] ∧
      s.context_attribs = (1, 0) :=
  ⟨_, rfl, by decide⟩

/-- C5, as stated, fails: when every creation call yields a null handle, the run reaches
the end of `CreateMainWindow`, and the calls `glXIsDirect` and `glXMakeContextCurrent` are
made with the null handle. -/
theorem createMainWindow_binds_null_handle :
    ∃ s, CreateMainWindow nullContextPlatform = Outcome.finished s ∧
      s.m_Context = 0 ∧ Event.glXIsDirect 0 ∈ s.trace ∧
      Event.glXMakeContextCurrent 0 ∈ s.trace :=
  ⟨_, rfl, by decide⟩

/-- C5, amended: from every state in which lines 148-229 are entered, when
`glXCreateNewContext` and the version 4.3 attempt yield a null handle, `m_Context` is null
at the end, the line "Failed to create an OpenGL context" is printed, and `glXIsDirect` and
`glXMakeContextCurrent` are then called with the null handle. -/
theorem createContext_null_context (p : Platform) (s : State) (hn : p.newContext = 0)
    (ha : p.attribsContext 4 3 = 0) :
    (createContext p s).m_Context = 0 ∧
      ∃ pre post, (createContext p s).trace =
          pre ++ [Event.print Msg.failedToCreateContext, Event.glXIsDirect 0] ++ post ∧
        Event.glXMakeContextCurrent 0 ∈ post := by
  unfold createContext
  have h0 := negotiate_m_Context_null p (openScope p s) hn ha
  have h1 : (closeScope p s.handler (negotiate p (openScope p s))).m_Context = 0 := by
    rw [closeScope_m_Context, h0]
  constructor
  · simp only
    rw [verifyAndBind_m_Context, h1]
  · obtain ⟨post, ht, hm⟩ := verifyAndBind_trace p (closeScope p s.handler
      (negotiate p (openScope p s)))
    rw [h1, closeScope_trace_null p _ _ h0] at ht
    simp only at ht ⊢
    refine ⟨(negotiate p (openScope p s)).trace ++
      [Event.xSync, Event.xSetErrorHandler s.handler], post, ?_, ?_⟩
    · rw [ht]
      simp
    · rw [h1] at hm
      exact hm

/-- C5, amended, on a platform where every creation call yields a null handle. -/
theorem createContext_null_context_witness :
    nullContextPlatform.newContext = 0 ∧ nullContextPlatform.attribsContext 4 3 = 0 ∧
      (createContext nullContextPlatform entryState).m_Context = 0 ∧
      ∃ pre post, (createContext nullContextPlatform entryState).trace =
          pre ++ [Event.print Msg.failedToCreateContext, Event.glXIsDirect 0] ++ post ∧
        Event.glXMakeContextCurrent 0 ∈ post :=
  ⟨by decide, by decide, createContext_null_context nullContextPlatform entryState
    (by decide) (by decide)⟩

/-- C6, as stated, fails: a name with a tab in it, which is a whitespace character, is
reported as supported by a list that holds it. -/
theorem isExtensionSupported_tab_name :
    (∃ c ∈ tabName, c.isWhitespace = true) ∧
      isExtensionSupported tabName tabName = some true := by
  decide

/-- C6, amended: for every list, `isExtensionSupported` returns false when the name is
empty or has a space character in it. -/
theorem isExtensionSupported_malformed (L N : List Char) (h : N = [] ∨ ' ' ∈ N) :
    isExtensionSupported L N = some false := by
  unfold isExtensionSupported
  rcases h with h | h
  · simp [h]
  · simp [strchr_isSome_of_mem ' ' N h]

/-- C6, amended, on a name with a space in it that the list holds. -/
theorem isExtensionSupported_malformed_witness :
    ("GLX_ARB foo".toList = [] ∨ ' ' ∈ "GLX_ARB foo".toList) ∧
      isExtensionSupported "GLX_ARB foo".toList "GLX_ARB foo".toList = some false :=
  ⟨by decide, isExtensionSupported_malformed _ _ (by decide)⟩

/-- C7 (the code departs from it): for an extension string that does not hold
`GLX_ARB_create_context` as a token (it is the name written twice without a space),
`glXCreateContextAttribsARB` is called and `glXCreateNewContext` is not. -/
theorem createMainWindow_repeated_name_modern :
    ¬ IsToken repeatedNamePlatform.glxExts GLX_ARB_create_context ∧
      ∃ s, CreateMainWindow repeatedNamePlatform = Outcome.finished s ∧
        attribsCalls s.trace = [Event.glXCreateContextAttribsARB 0 4 3 false] ∧
        newContextCalls s.trace = [] :=
  ⟨by decide, _, rfl, by decide⟩

/-- C8: on every path through lines 149-214, from every state, the handler in the slot
after the scope is the one that was there before it, the two calls of `XSetErrorHandler`
install `ctxErrorHandler` and then that previous handler, and when no X error is delivered
during the scope `ctxErrorOccurred` is false at its exit; lines 148-229 end with the
handler they were entered with, and so does every run of `CreateMainWindow` that reaches
its end. -/
theorem closeScope_restores_handler (p : Platform) (s : State) :
    (closeScope p s.handler (negotiate p (openScope p s))).handler = s.handler ∧
      handlerCalls (closeScope p s.handler (negotiate p (openScope p s))).trace =
        handlerCalls s.trace ++ [Handler.ctxErrorHandler, s.handler] ∧
      (NoErrorSignalled p →
        (closeScope p s.handler (negotiate p (openScope p s))).ctxErrorOccurred = false) ∧
      (createContext p s).handler = s.handler ∧
      (∀ t, CreateMainWindow p = Outcome.finished t → t.handler = p.installedHandler) := by
  refine ⟨closeScope_handler _ _ _, ?_, ?_, ?_, ?_⟩
  · rw [closeScope_handlerCalls, negotiate_handlerCalls, openScope_handlerCalls]
    simp
  · intro h
    rw [closeScope_flag p _ _ h]
    exact negotiate_flag p _ h (openScope_flag p s h)
  · exact createContext_handler p s
  · intro t ht
    unfold CreateMainWindow at ht
    cases hw : createWindow p with
    | undefined u tr =>
      rw [hw] at ht
      exact Outcome.noConfusion ht
    | finished w =>
      rw [hw] at ht
      have ht2 : createContext p w = t := Outcome.finished.inj ht
      rw [← ht2, createContext_handler, createWindow_handler p w hw]

/-- C8 on a platform that delivers no X error. -/
theorem closeScope_restores_handler_witness :
    NoErrorSignalled modernFailsPlatform ∧
      (closeScope modernFailsPlatform entryState.handler
        (negotiate modernFailsPlatform
          (openScope modernFailsPlatform entryState))).ctxErrorOccurred = false :=
  ⟨by decide,
    (closeScope_restores_handler modernFailsPlatform entryState).2.2.1 (by decide)⟩

/-- C9: for a non-empty array of resolvable candidates that all have the sample-buffer
flag set, the loop selects the smallest index whose sample count is the highest of the
array. -/
theorem selLoop_first_maximum (cs : List FBConfigInfo) (tr : List Event) (hne : cs ≠ [])
    (hall : ∀ c ∈ cs, c.vi = true ∧ c.samp_buf ≠ 0) :
    ∃ (b : Nat) (cb : FBConfigInfo),
      (selLoop cs 0 (selInit tr)).best_fbc = (b : Int) ∧ cs[b]? = some cb ∧
      (∀ (j : Nat) (cj : FBConfigInfo), cs[j]? = some cj → cj.samples ≤ cb.samples) ∧
      (∀ (j : Nat) (cj : FBConfigInfo), cs[j]? = some cj → j < b →
        cj.samples < cb.samples) := by
  obtain ⟨b, cb, hb, hcb, -, -, hmax⟩ := bestInv_selLoop cs tr hne (fun c hc => (hall c hc).1)
  refine ⟨b, cb, hb, hcb, ?_, ?_⟩
  · intro j cj hj
    exact (hmax j cj hj (Or.inr (hall cj (List.mem_iff_getElem?.mpr ⟨j, hj⟩)).2)).1
  · intro j cj hj hlt
    exact (hmax j cj hj (Or.inr (hall cj (List.mem_iff_getElem?.mpr ⟨j, hj⟩)).2)).2 hlt

/-- C9 on candidates with a tie for the highest sample count. -/
theorem selLoop_first_maximum_witness :
    tieCandidates ≠ [] ∧ (∀ c ∈ tieCandidates, c.vi = true ∧ c.samp_buf ≠ 0) ∧
    ∃ (b : Nat) (cb : FBConfigInfo),
      (selLoop tieCandidates 0 (selInit [])).best_fbc = (b : Int) ∧
      tieCandidates[b]? = some cb ∧
      (∀ (j : Nat) (cj : FBConfigInfo), tieCandidates[j]? = some cj →
        cj.samples ≤ cb.samples) ∧
      (∀ (j : Nat) (cj : FBConfigInfo), tieCandidates[j]? = some cj → j < b →
        cj.samples < cb.samples) :=
  ⟨by decide, by decide, selLoop_first_maximum tieCandidates [] (by decide) (by decide)⟩

/-- C10: for every list `L` and every non-empty name `N` without a space, if `N` is one
of the space-delimited tokens of `L` then `isExtensionSupported` returns true, whatever
occurrences inside longer tokens were found and rejected before. -/
theorem isExtensionSupported_of_mem_splitOn (L N : List Char) (hN : N ≠ []) (hsp : ' ' ∉ N)
    (h : N ∈ L.splitOn ' ') : isExtensionSupported L N = some true := by
  obtain ⟨pre, post, hd, hpre, hpost⟩ := mem_intercalate_decomp ' ' N _ h
  rw [List.intercalate_splitOn] at hd
  rw [hd]
  exact isExtensionSupported_of_decomp N pre post hN hsp hpre hpost

/-- C10 on a list where the name is rejected twice inside longer tokens before it is
found as a token. -/
theorem isExtensionSupported_of_mem_splitOn_witness :
    "GLX_ARB_foo".toList ≠ [] ∧ ' ' ∉ "GLX_ARB_foo".toList ∧
      "GLX_ARB_foo".toList ∈ rejectedFirstList.splitOn ' ' ∧
      isExtensionSupported rejectedFirstList "GLX_ARB_foo".toList = some true :=
  ⟨by decide, by decide, by decide,
    isExtensionSupported_of_mem_splitOn rejectedFirstList "GLX_ARB_foo".toList (by decide)
      (by decide) (by decide)⟩

end GLX
